import Mathlib

/-!
# Verification of the US Treasury yield-curve backend

Shallow embedding of the backend data pipeline (`backend/index.js` and
`scheduler.js`): month enumeration, CSV aggregation, the in-memory cache,
the three query handlers, and the hourly refresh scheduler.  Network I/O is
abstracted as a function from month token to the rows that month's
fetch+parse produced (a failed or malformed month contributes `[]`, exactly
as the `.catch(e => ...)` in the source returns `[]`).
-/

/-- A parsed CSV record: an ordered mapping from column name to raw string
value, as produced by `parse(csvText, { columns: true, ... })`.  Column
order is the header order. -/
abbrev Row : Type := List (String × String)

/-- JS property read `r[c]` on a record object: the value of the first
binding of column `c`, or `none` for `undefined`. -/
def jsIndex (r : Row) (c : String) : Option String :=
  (r.find? (fun p => p.1 = c)).map (fun p => p.2)

/-- A JS number as produced by `parseFloat`: either `NaN` or a finite
decimal value (the CSV carries plain decimal strings, which `parseFloat`
reads exactly). -/
inductive JsNum : Type
  | nan : JsNum
  | num (q : ℚ) : JsNum
deriving DecidableEq

/-- A rate cell in a curve response: JS `null` or a number. -/
inductive RateVal : Type
  | null : RateVal
  | val (n : JsNum) : RateVal
deriving DecidableEq

/-- Value of a list of decimal digit characters, most significant first. -/
def digitsVal (ds : List Char) : Nat :=
  ds.foldl (fun a c => a * 10 + (c.toNat - 48)) 0

/-- Model of JS `parseFloat` on the decimal strings this program feeds it:
skip leading spaces, optional sign, then the longest prefix of the form
`digits [ "." digits ]`; no digits at all yields `NaN`. -/
def parseFloat (s : String) : JsNum :=
  let cs := s.data.dropWhile (fun c => c = ' ')
  let signNeg : Bool := match cs with
    | '-' :: _ => true
    | _ => false
  let cs1 : List Char := match cs with
    | '-' :: t => t
    | '+' :: t => t
    | _ => cs
  let intDs := cs1.takeWhile Char.isDigit
  let rest := cs1.dropWhile Char.isDigit
  let fracDs : List Char := match rest with
    | '.' :: t => t.takeWhile Char.isDigit
    | _ => []
  if intDs.isEmpty && fracDs.isEmpty then JsNum.nan
  else
    let mag : ℚ := (digitsVal intDs : ℚ) + (digitsVal fracDs : ℚ) / ((10 : ℚ) ^ fracDs.length)
    JsNum.num (if signNeg then -mag else mag)

/-- `(m+1).toString().padStart(2, '0')` for a 0-based month index. -/
def pad2 (n : Nat) : String :=
  if n < 10 then "0" ++ toString n else toString n

/-- The template literal `` `${y}${(m+1).toString().padStart(2,'0')}` ``:
the YYYYMM token for 0-based month `m` of year `y`. -/
def monthToken (y m : Nat) : String :=
  toString y ++ pad2 (m + 1)

/-- The `while` loop of `getAllMonths`: starting from year `y`, 0-based
month `m`, emit one token per month while `y < cy || (y === cy && m <= cm)`,
incrementing the month and wrapping `m > 11` to January of the next year.
`cy`/`cm` are `now.getFullYear()` / `now.getMonth()`. -/
def getAllMonthsGo (cy cm y m : Nat) : List String :=
  if h : y < cy ∨ (y = cy ∧ m ≤ cm) then
    monthToken y m ::
      (if h2 : m + 1 > 11 then getAllMonthsGo cy cm (y + 1) 0
       else getAllMonthsGo cy cm y (m + 1))
  else []
termination_by cy * 12 + cm + 1 - (y * 12 + min m 11)
decreasing_by
  · simp_wf
    omega
  · simp_wf
    omega

/-- `getAllMonths` from `backend/index.js`: all month tokens from January
2025 (`new Date(2025, 0, 1)`) through the current month inclusive, where
`cy` is the current full year and `cm` the current 0-based month. -/
def getAllMonths (cy cm : Nat) : List String :=
  getAllMonthsGo cy cm 2025 0

/-- `fetchAndParseCSV` from `backend/index.js`.  The network and the CSV
parser are abstracted by `fetchParse`: for a month token it returns the
rows that month's `fetch(...).then(parse)` chain resolved to, where a
rejected fetch or parse resolves to `[]` via `.catch(e => ... return [])`.
`Promise.all` joins the per-month results by index, so the flattened
dataset concatenates the months in token order.  A flattened result of
length 0 throws `'Parsed CSVs are empty.'`.  The `force` parameter is
declared (`force = false`) but never read in the body. -/
def fetchAndParseCSV (force : Bool) (cy cm : Nat)
    (fetchParse : String → List Row) : Except String (List Row) :=
  let months := getAllMonths cy cm
  let allRecordsArr := months.map fetchParse
  let allRecords := allRecordsArr.flatten
  if allRecords.length = 0 then Except.error "Parsed CSVs are empty."
  else Except.ok allRecords

/-- `Array.from(new Set(l))`: JS `Set` iteration is insertion order, so
this keeps the first occurrence of each element. -/
def jsSetFromList {α : Type} [DecidableEq α] (l : List α) : List α :=
  l.foldl (fun acc x => if x ∈ acc then acc else acc ++ [x]) []

/-- `extractDates` from `backend/index.js`:
`Array.from(new Set(records.map(r => r['Date'])))`. -/
def extractDates (records : List Row) : List (Option String) :=
  jsSetFromList (records.map (fun r => jsIndex r "Date"))

/-- A character matched by the JS regex class `\s` (ASCII range). -/
def isJsSpace (c : Char) : Bool :=
  c = ' ' || c = '\t' || c = '\n' || c = '\r' || c = '\x0b' || c = '\x0c'

/-- Does `cs` start with `Mo` or `YR`, case-insensitively? -/
def unitHere (cs : List Char) : Bool :=
  match cs with
  | a :: b :: _ =>
      (a.toLower = 'm' && b.toLower = 'o') || (a.toLower = 'y' && b.toLower = 'r')
  | _ => false

/-- Does a match of `\d+\s*(Mo|YR)` (case-insensitive) start at the head of
`cs`?  The head must be a digit; the regex then takes the digit run, any
whitespace, and a unit.  (Taking the full digit run loses no matches: a
shorter run would leave a digit where `Mo`/`YR` must start.) -/
def matchHere (cs : List Char) : Bool :=
  match cs with
  | c :: rest =>
      c.isDigit && unitHere ((rest.dropWhile Char.isDigit).dropWhile isJsSpace)
  | [] => false

/-- JS `/\d+\s*(Mo|YR)/i.test(s)`: some suffix of `s` starts a match. -/
def hasMaturityPattern (s : String) : Bool :=
  go s.data
where
  /-- Try the unanchored match at every start position. -/
  go : List Char → Bool
    | [] => false
    | c :: rest => matchHere (c :: rest) || go rest

/-- `extractMaturities` from `backend/index.js`: the keys of the first
record (`records[0]`, `Object.keys` gives insertion order) that pass the
`/\d+\s*(Mo|YR)/i` test.  The handlers only ever call it on a non-empty
list. -/
def extractMaturities (records : List Row) : List String :=
  match records with
  | [] => []
  | sample :: _ => (sample.map (fun p => p.1)).filter hasMaturityPattern

/-- `record[maturity] !== '' ? parseFloat(record[maturity]) : null` from
the yield-curve handler.  A missing key reads as `undefined`, and
`parseFloat(undefined)` is `NaN` (unreachable for keys of the record). -/
def rateOf (record : Row) (m : String) : RateVal :=
  match jsIndex record m with
  | some v => if v = "" then RateVal.null else RateVal.val (parseFloat v)
  | none => RateVal.val JsNum.nan

/-- An HTTP response produced by one of the three `/api` query handlers. -/
inductive Response : Type
  | badRequest (msg : String)                                   -- 400
  | notFound (msg : String)                                     -- 404
  | serverError (msg : String)                                  -- 500
  | okDates (dates : List (Option String))                      -- /api/dates
  | okCurve (date : String) (curve : List (String × RateVal))   -- /api/yield-curve
  | okAll (data : List Row) (dates : List (Option String))      -- /api/yield-curves
deriving DecidableEq

/-- The module-level mutable cache: `let cachedData = null` and
`let cachedDates = null`; `none` models JS `null`. -/
structure ServerState : Type where
  cachedData : Option (List Row)
  cachedDates : Option (List (Option String))
deriving DecidableEq

/-- The environment a handler runs against: the current wall-clock
year/month (read inside `getAllMonths`) and the per-month fetch+parse
outcomes a lazy `fetchAndParseCSV()` call would observe. -/
structure Env : Type where
  cy : Nat
  cm : Nat
  fetchParse : String → List Row

/-- The `/api/dates` handler body after `cachedData` is known to hold
`data`: fill `cachedDates` if it is `null`, throw if the date list is
empty, else respond with the dates. -/
def datesRest (st : ServerState) (data : List Row) : ServerState × Response :=
  let ds := match st.cachedDates with
    | some ds => ds
    | none => extractDates data
  let st1 : ServerState := { st with cachedDates := some ds }
  if ds.length = 0 then (st1, Response.serverError "No dates found in CSV.")
  else (st1, Response.okDates ds)

/-- The lazy branch of `/api/dates`: how the handler continues on the
settled `fetchAndParseCSV()` promise — a throw is caught as a 500, a
result is assigned to `cachedData` before the handler proceeds. -/
def datesFetched (st : ServerState) : Except String (List Row) → ServerState × Response
  | Except.error e => (st, Response.serverError e)
  | Except.ok data => datesRest { st with cachedData := some data } data

/-- The `GET /api/dates` handler.  The `Bool` records whether the lazy
branch `if (!cachedData) cachedData = await fetchAndParseCSV()` actually
invoked a fetch. -/
def datesHandler (env : Env) (st : ServerState) : (ServerState × Response) × Bool :=
  match st.cachedData with
  | some data => (datesRest st data, false)
  | none => (datesFetched st (fetchAndParseCSV false env.cy env.cm env.fetchParse), true)

/-- The `/api/yield-curve` handler body after `cachedData` is known to
hold `data`: find the first record whose `Date` column equals the query
param, 404 if none, then build the maturity/rate pairs from that record. -/
def yieldCurveRest (st : ServerState) (data : List Row) (date : String) :
    ServerState × Response :=
  match data.find? (fun r => jsIndex r "Date" = some date) with
  | none => (st, Response.notFound "Date not found")
  | some record =>
      let maturities := extractMaturities [record]
      if maturities.length = 0 then
        (st, Response.serverError "No maturity columns found for this date.")
      else
        (st, Response.okCurve date (maturities.map (fun m => (m, rateOf record m))))

/-- The lazy branch of `/api/yield-curve`: continuation on the settled
`fetchAndParseCSV()` promise — a throw is caught as a 500, a result is
assigned to `cachedData` before the lookup proceeds. -/
def curveFetched (st : ServerState) (date : String) :
    Except String (List Row) → ServerState × Response
  | Except.error e => (st, Response.serverError e)
  | Except.ok data => yieldCurveRest { st with cachedData := some data } data date

/-- The `GET /api/yield-curve` handler.  `dateParam` is `req.query.date`
(`none` for absent); `if (!date)` also rejects the empty string.  The
`Bool` records whether the lazy branch invoked a fetch. -/
def yieldCurveHandler (env : Env) (dateParam : Option String) (st : ServerState) :
    (ServerState × Response) × Bool :=
  match dateParam with
  | none => ((st, Response.badRequest "Missing date param"), false)
  | some date =>
      if date = "" then ((st, Response.badRequest "Missing date param"), false)
      else
        match st.cachedData with
        | some data => (yieldCurveRest st data date, false)
        | none =>
            (curveFetched st date (fetchAndParseCSV false env.cy env.cm env.fetchParse),
              true)

/-- The `/api/yield-curves` handler body after `cachedData` is known to
hold `data`. -/
def allRest (st : ServerState) (data : List Row) : ServerState × Response :=
  let ds := match st.cachedDates with
    | some ds => ds
    | none => extractDates data
  let st1 : ServerState := { st with cachedDates := some ds }
  if data.length = 0 then (st1, Response.serverError "No yield curve data available")
  else (st1, Response.okAll data ds)

/-- The lazy branch of `/api/yield-curves`: continuation on the settled
`fetchAndParseCSV()` promise. -/
def allFetched (st : ServerState) : Except String (List Row) → ServerState × Response
  | Except.error e => (st, Response.serverError e)
  | Except.ok data => allRest { st with cachedData := some data } data

/-- The `GET /api/yield-curves` handler.  The `Bool` records whether the
lazy branch invoked a fetch. -/
def allHandler (env : Env) (st : ServerState) : (ServerState × Response) × Bool :=
  match st.cachedData with
  | some data => (allRest st data, false)
  | none => (allFetched st (fetchAndParseCSV false env.cy env.cm env.fetchParse), true)

/-- How `scheduleCsvRefresh`'s `setInterval` callback (`scheduler.js`)
continues on the settled `fetchAndParseCSV(true)` promise: it discards a
result, and catches a rejection (logging only).  In neither case does the
callback write `cachedData` or `cachedDates`, so the cache state is
returned unchanged. -/
def tickResult (st : ServerState) : Except String (List Row) → ServerState
  | Except.ok _ => st
  | Except.error _ => st

/-- One tick of `scheduleCsvRefresh`'s `setInterval` callback, applied to
the settled refresh promise via `tickResult`. -/
def schedulerTick (env : Env) (st : ServerState) : ServerState :=
  tickResult st (fetchAndParseCSV true env.cy env.cm env.fetchParse)

/-- The startup IIFE of `backend/index.js`, as a function of the settled
initial promise: `cachedData = await fetchAndParseCSV(true); cachedDates =
extractDates(cachedData)`, then the scheduler and server start; a throw
reaches `process.exit(1)` (`none`). -/
def startupWith : Except String (List Row) → Option ServerState
  | Except.error _ => none
  | Except.ok data => some ⟨some data, some (extractDates data)⟩

/-- The startup IIFE applied to the settled initial refresh promise. -/
def startup (env : Env) : Option ServerState :=
  startupWith (fetchAndParseCSV true env.cy env.cm env.fetchParse)

/-- An event the running server can process: one of the three query
requests, or a scheduled refresh tick. -/
inductive Event : Type
  | datesReq : Event
  | curveReq (dateParam : Option String) : Event
  | allReq : Event
  | tick : Event

/-- The cache state after processing one event. -/
def stepState (env : Env) (e : Event) (st : ServerState) : ServerState :=
  match e with
  | Event.datesReq => (datesHandler env st).1.1
  | Event.curveReq d => (yieldCurveHandler env d st).1.1
  | Event.allReq => (allHandler env st).1.1
  | Event.tick => schedulerTick env st

/-- Did processing this event invoke `fetchAndParseCSV` from a query
handler's lazy branch?  (A `tick` is the scheduler, not a query.) -/
def queryFetched (env : Env) (e : Event) (st : ServerState) : Bool :=
  match e with
  | Event.datesReq => (datesHandler env st).2
  | Event.curveReq d => (yieldCurveHandler env d st).2
  | Event.allReq => (allHandler env st).2
  | Event.tick => false

/-- The cache state after processing a sequence of events in order. -/
def run (env : Env) (es : List Event) (st : ServerState) : ServerState :=
  es.foldl (fun s e => stepState env e s) st

/-- Modelled from the spec: "the set of distinct date labels present in
the Dataset, in first-seen order, deduplicated" — keep each element's
first occurrence, dropping its later duplicates. -/
def firstSeenDedup {α : Type} [DecidableEq α] : List α → List α
  | [] => []
  | x :: xs => x :: firstSeenDedup (xs.filter (fun y => y ≠ x))
termination_by l => l.length
decreasing_by
  simp_wf
  have := List.length_filter_le (fun y => !decide (y = x)) xs
  omega

/-- The numeric YYYYMM value of the `i`-th calendar month after January
2025, i.e. of the token `monthToken (2025 + i / 12) (i % 12)`. -/
def monthCode (i : Nat) : Nat :=
  (2025 + i / 12) * 100 + (i % 12 + 1)

/-- A per-month fetch outcome together with the wall-clock duration the
underlying `fetch(makeCsvUrl(ym))...` promise chain takes to settle. -/
structure TimedOutcome : Type where
  time : Nat
  rows : List Row

/-- How long `fetchAndParseCSV` waits on one month: the source applies no
timeout (no `timeout`/`AbortSignal` option on `fetch`, no `Promise.race`),
so the wait is exactly the underlying promise's settle time. -/
def monthSettleTime (o : TimedOutcome) : Nat := o.time

/-- How long `await Promise.all(fetches)` waits: until the slowest
per-month promise settles. -/
def refreshSettleTime (outs : List TimedOutcome) : Nat :=
  (outs.map monthSettleTime).foldr max 0

/-! ## Helper lemmas -/

theorem getAllMonthsGo_closed (cy cm : Nat) (hcm : cm ≤ 11) (y m : Nat) :
    m ≤ 11 →
    getAllMonthsGo cy cm y m =
      (List.range (cy * 12 + cm + 1 - (y * 12 + m))).map
        (fun i => monthToken ((y * 12 + m + i) / 12) ((y * 12 + m + i) % 12)) := by
  induction y, m using getAllMonthsGo.induct cy cm with
  | case1 y m hg ih1 ih2 =>
    intro hm
    obtain ⟨n, hn⟩ : ∃ n, cy * 12 + cm + 1 - (y * 12 + m) = n + 1 :=
      ⟨cy * 12 + cm - (y * 12 + m), by omega⟩
    rw [getAllMonthsGo, dif_pos hg, hn, List.range_succ_eq_map, List.map_cons]
    by_cases h2 : m + 1 > 11
    · have hm11 : m = 11 := by omega
      rw [dif_pos h2, ih1 h2 (by omega)]
      have hn' : cy * 12 + cm + 1 - ((y + 1) * 12 + 0) = n := by omega
      rw [hn', List.map_map]
      congr 1
      · have e1 : (y * 12 + m + 0) / 12 = y := by omega
        have e2 : (y * 12 + m + 0) % 12 = m := by omega
        rw [e1, e2]
      · apply List.map_congr_left
        intro a _
        simp only [Function.comp_apply, Nat.succ_eq_add_one]
        have e : (y + 1) * 12 + 0 + a = y * 12 + m + (a + 1) := by omega
        rw [e]
    · rw [dif_neg h2, ih2 h2 (by omega)]
      have hn' : cy * 12 + cm + 1 - (y * 12 + (m + 1)) = n := by omega
      rw [hn', List.map_map]
      congr 1
      · have e1 : (y * 12 + m + 0) / 12 = y := by omega
        have e2 : (y * 12 + m + 0) % 12 = m := by omega
        rw [e1, e2]
      · apply List.map_congr_left
        intro a _
        simp only [Function.comp_apply, Nat.succ_eq_add_one]
        have e : y * 12 + (m + 1) + a = y * 12 + m + (a + 1) := by omega
        rw [e]
  | case2 y m hg =>
    intro hm
    have h0 : cy * 12 + cm + 1 - (y * 12 + m) = 0 := by omega
    rw [getAllMonthsGo, dif_neg hg, h0, List.range_zero, List.map_nil]

theorem getAllMonths_eq (cy cm : Nat) (hcy : 2025 ≤ cy) (hcm : cm ≤ 11) :
    getAllMonths cy cm =
      (List.range ((cy - 2025) * 12 + cm + 1)).map
        (fun i => monthToken (2025 + i / 12) (i % 12)) := by
  rw [getAllMonths, getAllMonthsGo_closed cy cm hcm 2025 0 (by omega)]
  have e : cy * 12 + cm + 1 - (2025 * 12 + 0) = (cy - 2025) * 12 + cm + 1 := by omega
  rw [e]
  apply List.map_congr_left
  intro a _
  have e1 : (2025 * 12 + 0 + a) / 12 = 2025 + a / 12 := by omega
  have e2 : (2025 * 12 + 0 + a) % 12 = a % 12 := by omega
  rw [e1, e2]

theorem getAllMonths_jan2025 : getAllMonths 2025 0 = ["202501"] := by
  rw [getAllMonths_eq 2025 0 (by norm_num) (by norm_num)]
  decide

theorem monthCode_lt_succ (i : Nat) : monthCode i < monthCode (i + 1) := by
  unfold monthCode
  omega

theorem schedulerTick_id (env : Env) (st : ServerState) : schedulerTick env st = st := by
  unfold schedulerTick
  cases fetchAndParseCSV true env.cy env.cm env.fetchParse <;> rfl

/-! ## Claim theorems -/

/-- C9: for any current date on or after January 2025 (`2025 ≤ cy`, with a
real 0-based month `cm ≤ 11`), `getAllMonths` returns the tokens of the
consecutive calendar months from January 2025 through the current month
inclusive: the `i`-th entry renders the `i`-th month after 202501, the
first entry is `"202501"`, the last is the current month's token, and the
underlying YYYYMM month codes are strictly increasing (hence each month
appears exactly once).  It is a total function of `(cy, cm)`. -/
theorem getAllMonths_enumerates_months (cy cm : Nat) (hcy : 2025 ≤ cy) (hcm : cm ≤ 11) :
    getAllMonths cy cm =
        (List.range ((cy - 2025) * 12 + cm + 1)).map
          (fun i => monthToken (2025 + i / 12) (i % 12))
      ∧ (getAllMonths cy cm).head? = some "202501"
      ∧ (getAllMonths cy cm).getLast? = some (monthToken cy cm)
      ∧ List.Pairwise (· < ·)
          ((List.range ((cy - 2025) * 12 + cm + 1)).map monthCode) := by
  have hEq := getAllMonths_eq cy cm hcy hcm
  refine ⟨hEq, ?_, ?_, ?_⟩
  · rw [hEq]
    obtain ⟨n, hn⟩ : ∃ n, (cy - 2025) * 12 + cm + 1 = n + 1 :=
      ⟨(cy - 2025) * 12 + cm, rfl⟩
    rw [hn, List.range_succ_eq_map, List.map_cons, List.head?_cons]
    have e1 : 2025 + 0 / 12 = 2025 := by norm_num
    have e2 : 0 % 12 = 0 := by norm_num
    rw [e1, e2]
    exact congrArg some (by decide)
  · rw [hEq]
    obtain ⟨n, hn⟩ : ∃ n, (cy - 2025) * 12 + cm + 1 = n + 1 :=
      ⟨(cy - 2025) * 12 + cm, rfl⟩
    rw [hn, List.range_succ, List.map_append, List.map_cons, List.map_nil,
      List.getLast?_concat]
    have e1 : 2025 + n / 12 = cy := by omega
    have e2 : n % 12 = cm := by omega
    rw [e1, e2]
  · have hsm : StrictMono monthCode := strictMono_nat_of_lt_succ monthCode_lt_succ
    exact List.pairwise_map.mpr ((List.pairwise_lt_range _).imp (fun h => hsm h))

/-- Witness for C9 at the concrete current date January 2025. -/
theorem getAllMonths_enumerates_months_w :
    2025 ≤ 2025 ∧ (0 : Nat) ≤ 11 ∧
      (getAllMonths 2025 0 =
          (List.range ((2025 - 2025) * 12 + 0 + 1)).map
            (fun i => monthToken (2025 + i / 12) (i % 12))
        ∧ (getAllMonths 2025 0).head? = some "202501"
        ∧ (getAllMonths 2025 0).getLast? = some (monthToken 2025 0)
        ∧ List.Pairwise (· < ·)
            ((List.range ((2025 - 2025) * 12 + 0 + 1)).map monthCode)) :=
  ⟨by norm_num, by norm_num,
    getAllMonths_enumerates_months 2025 0 (by norm_num) (by norm_num)⟩

/-- C10: `fetchAndParseCSV` never reads its `force` parameter, so for any
fixed per-month outcomes its result is identical under `force = true` and
`force = false` (same dataset on success, same error on failure). -/
theorem fetchAndParseCSV_force_irrelevant (f1 f2 : Bool) (cy cm : Nat)
    (fp : String → List Row) :
    fetchAndParseCSV f1 cy cm fp = fetchAndParseCSV f2 cy cm fp := rfl

/-- C2: if at least one month's fetch+parse yields a non-empty row list,
`fetchAndParseCSV` succeeds and returns the per-month row lists
concatenated in month-token order (join by month index), so the row count
is the sum of the per-month row counts. -/
theorem fetchAndParseCSV_concat (force : Bool) (cy cm : Nat) (fp : String → List Row)
    (h : ∃ ym ∈ getAllMonths cy cm, fp ym ≠ []) :
    fetchAndParseCSV force cy cm fp = Except.ok ((getAllMonths cy cm).map fp).flatten
    ∧ (((getAllMonths cy cm).map fp).flatten).length
        = ((getAllMonths cy cm).map (fun ym => (fp ym).length)).sum := by
  obtain ⟨ym, hmem, hne⟩ := h
  have hflat : ((getAllMonths cy cm).map fp).flatten ≠ [] := by
    intro hnil
    exact hne (List.flatten_eq_nil_iff.mp hnil _ (List.mem_map_of_mem fp hmem))
  constructor
  · simp only [fetchAndParseCSV]
    rw [if_neg (fun h0 => hflat (List.length_eq_zero.mp h0))]
  · rw [List.length_flatten, List.map_map]
    rfl

/-- Witness for C2: a single month (January 2025 "today") yielding one
row. -/
theorem fetchAndParseCSV_concat_w :
    (∃ ym ∈ getAllMonths 2025 0,
        (fun _ => [[("Date", "01/02/2025")]] : String → List Row) ym ≠ [])
    ∧ (fetchAndParseCSV true 2025 0 (fun _ => [[("Date", "01/02/2025")]])
          = Except.ok ((getAllMonths 2025 0).map (fun _ => [[("Date", "01/02/2025")]])).flatten
        ∧ (((getAllMonths 2025 0).map (fun _ => [[("Date", "01/02/2025")]])).flatten).length
            = ((getAllMonths 2025 0).map
                (fun ym => ((fun _ => [[("Date", "01/02/2025")]] : String → List Row) ym).length)).sum) := by
  have h : ∃ ym ∈ getAllMonths 2025 0,
      (fun _ => [[("Date", "01/02/2025")]] : String → List Row) ym ≠ [] := by
    simp [getAllMonths_jan2025]
  exact ⟨h, fetchAndParseCSV_concat true 2025 0 _ h⟩

/-- C3: if every month's fetch or parse fails (each contributes `[]`),
`fetchAndParseCSV` fails with the data-unavailable error
`'Parsed CSVs are empty.'`, and a scheduled refresh tick leaves the cache
(`cachedData`/`cachedDates`) exactly as it was. -/
theorem fetchAndParseCSV_all_failed (cy cm : Nat) (fp : String → List Row)
    (st : ServerState) (h : ∀ ym ∈ getAllMonths cy cm, fp ym = []) :
    fetchAndParseCSV true cy cm fp = Except.error "Parsed CSVs are empty."
    ∧ schedulerTick ⟨cy, cm, fp⟩ st = st := by
  have hflat : ((getAllMonths cy cm).map fp).flatten = [] := by
    rw [List.flatten_eq_nil_iff]
    intro l hl
    obtain ⟨ym, hym, rfl⟩ := List.mem_map.mp hl
    exact h ym hym
  constructor
  · simp only [fetchAndParseCSV]
    rw [if_pos (by simp [hflat])]
  · exact schedulerTick_id _ _

/-- Witness for C3: every month of the single-month range fails, with a
populated cache left untouched. -/
theorem fetchAndParseCSV_all_failed_w :
    (∀ ym ∈ getAllMonths 2025 0, (fun _ => ([] : List Row)) ym = [])
    ∧ (fetchAndParseCSV true 2025 0 (fun _ => ([] : List Row))
          = Except.error "Parsed CSVs are empty."
        ∧ schedulerTick ⟨2025, 0, fun _ => ([] : List Row)⟩
              ⟨some [[("Date", "01/02/2025")]], some [some "01/02/2025"]⟩
            = ⟨some [[("Date", "01/02/2025")]], some [some "01/02/2025"]⟩) :=
  ⟨fun _ _ => rfl,
    fetchAndParseCSV_all_failed 2025 0 _ _ (fun _ _ => rfl)⟩

/-- C1 (code bug): a scheduled refresh tick whose `fetchAndParseCSV(true)`
succeeds with a fresh dataset leaves `cachedData`/`cachedDates` exactly as
they were — the scheduler discards the result, so the served snapshot does
not equal the refresh's aggregation. -/
theorem scheduled_refresh_not_installed :
    fetchAndParseCSV true 2025 0 (fun _ => [[("Date", "01/03/2025")]])
        = Except.ok [[("Date", "01/03/2025")]]
    ∧ schedulerTick ⟨2025, 0, fun _ => [[("Date", "01/03/2025")]]⟩
          ⟨some [[("Date", "01/02/2025")]], some [some "01/02/2025"]⟩
        = ⟨some [[("Date", "01/02/2025")]], some [some "01/02/2025"]⟩
    ∧ (⟨some [[("Date", "01/02/2025")]], some [some "01/02/2025"]⟩ : ServerState).cachedData
        ≠ some [[("Date", "01/03/2025")]] := by
  refine ⟨?_, schedulerTick_id _ _, by decide⟩
  simp [fetchAndParseCSV, getAllMonths_jan2025]

/-- C8 (code bug): the source applies no timeout to any per-month fetch,
so no bound `T` caps a month's settle time, and `Promise.all` makes the
whole refresh wait at least as long as any single month. -/
theorem no_fetch_timeout_bound :
    (∀ T : Nat, ∃ o : TimedOutcome, monthSettleTime o > T)
    ∧ ∀ (t : Nat) (rows : List Row) (rest : List TimedOutcome),
        t ≤ refreshSettleTime ({ time := t, rows := rows } :: rest) := by
  constructor
  · intro T
    exact ⟨⟨T + 1, []⟩, Nat.lt_succ_self T⟩
  · intro t rows rest
    have e : refreshSettleTime ({ time := t, rows := rows } :: rest)
        = max t ((rest.map monthSettleTime).foldr max 0) := rfl
    rw [e]
    exact le_max_left _ _

/-- C7: a yield-curve query for a date that matches no row of the cached
dataset responds 404 Not Found and leaves the cache state unchanged
(and performs no fetch). -/
theorem curve_unknown_date_404 (env : Env) (d : String) (st : ServerState)
    (ds : List Row) (hd : d ≠ "") (hcache : st.cachedData = some ds)
    (hnone : ∀ r ∈ ds, jsIndex r "Date" ≠ some d) :
    yieldCurveHandler env (some d) st = ((st, Response.notFound "Date not found"), false) := by
  have hfind : ds.find? (fun r => jsIndex r "Date" = some d) = none := by
    rw [List.find?_eq_none]
    intro r hr
    simpa using hnone r hr
  simp only [yieldCurveHandler, if_neg hd, hcache, yieldCurveRest, hfind]

/-- Witness for C7: one cached row, queried with a different date. -/
theorem curve_unknown_date_404_w :
    (("01/09/2025" : String) ≠ ""
      ∧ (⟨some [[("Date", "01/02/2025")]], none⟩ : ServerState).cachedData
          = some [[("Date", "01/02/2025")]]
      ∧ ∀ r ∈ [[("Date", "01/02/2025")]], jsIndex r "Date" ≠ some "01/09/2025")
    ∧ yieldCurveHandler ⟨2025, 0, fun _ => []⟩ (some "01/09/2025")
          ⟨some [[("Date", "01/02/2025")]], none⟩
        = ((⟨some [[("Date", "01/02/2025")]], none⟩, Response.notFound "Date not found"), false) := by
  refine ⟨⟨by decide, rfl, by decide⟩, ?_⟩
  exact curve_unknown_date_404 _ _ _ _ (by decide) rfl (by decide)

theorem mem_firstSeenDedup {α : Type} [DecidableEq α] (l : List α) (x : α) :
    x ∈ firstSeenDedup l → x ∈ l := by
  induction l using firstSeenDedup.induct with
  | case1 => simp [firstSeenDedup]
  | case2 a xs ih =>
    intro hx
    rw [firstSeenDedup] at hx
    rcases List.mem_cons.mp hx with h | h
    · exact h ▸ List.mem_cons_self a xs
    · exact List.mem_cons_of_mem a (List.mem_of_mem_filter (ih h))

theorem mem_firstSeenDedup_of_mem {α : Type} [DecidableEq α] (l : List α) (x : α) :
    x ∈ l → x ∈ firstSeenDedup l := by
  induction l using firstSeenDedup.induct with
  | case1 => simp
  | case2 a xs ih =>
    intro hx
    rw [firstSeenDedup]
    by_cases hax : x = a
    · exact hax ▸ List.mem_cons_self _ _
    · have hxs : x ∈ xs := by
        rcases List.mem_cons.mp hx with h | h
        · exact absurd h hax
        · exact h
      refine List.mem_cons_of_mem _ (ih (List.mem_filter.mpr ⟨hxs, by simp [hax]⟩))

theorem firstSeenDedup_nodup {α : Type} [DecidableEq α] (l : List α) :
    (firstSeenDedup l).Nodup := by
  induction l using firstSeenDedup.induct with
  | case1 => simp [firstSeenDedup]
  | case2 a xs ih =>
    rw [firstSeenDedup]
    refine List.nodup_cons.mpr ⟨?_, ih⟩
    intro ha
    have := List.of_mem_filter (mem_firstSeenDedup _ _ ha)
    simp at this

theorem foldl_insert_firstSeenDedup {α : Type} [DecidableEq α] (l acc : List α) :
    l.foldl (fun acc x => if x ∈ acc then acc else acc ++ [x]) acc
      = acc ++ firstSeenDedup (l.filter (fun y => y ∉ acc)) := by
  induction l generalizing acc with
  | nil => simp [firstSeenDedup]
  | cons x xs ih =>
    by_cases hx : x ∈ acc
    · rw [List.foldl_cons, if_pos hx, ih, List.filter_cons, if_neg (by simpa using hx)]
    · rw [List.foldl_cons, if_neg hx, ih, List.filter_cons, if_pos (by simpa using hx)]
      rw [firstSeenDedup]
      have hfil : List.filter (fun y => decide (y ∉ acc ++ [x])) xs
          = List.filter (fun y => decide ¬(y = x))
              (List.filter (fun y => decide (y ∉ acc)) xs) := by
        rw [List.filter_filter]
        apply List.filter_congr
        intro a _
        by_cases h1 : a = x <;> by_cases h2 : a ∈ acc <;> simp [h1, h2]
      rw [hfil]
      simp

theorem jsSetFromList_eq_firstSeenDedup {α : Type} [DecidableEq α] (l : List α) :
    jsSetFromList l = firstSeenDedup l := by
  rw [jsSetFromList, foldl_insert_firstSeenDedup, List.nil_append]
  congr 1
  apply List.filter_eq_self.mpr
  intro a _
  simp

/-- C6: the dates query's `extractDates` never contains a duplicate date
label, and it equals the spec's DateIndex — the distinct values of the
`Date` column kept in first-seen order (`firstSeenDedup`) — with an
element for a label exactly when some row carries that label. -/
theorem extractDates_firstSeen (records : List Row) :
    (extractDates records).Nodup
    ∧ extractDates records
        = firstSeenDedup (records.map (fun r => jsIndex r "Date"))
    ∧ ∀ x, x ∈ extractDates records ↔ ∃ r ∈ records, jsIndex r "Date" = x := by
  have he : extractDates records
      = firstSeenDedup (records.map (fun r => jsIndex r "Date")) :=
    jsSetFromList_eq_firstSeenDedup _
  refine ⟨he ▸ firstSeenDedup_nodup _, he, ?_⟩
  intro x
  constructor
  · intro hx
    have := mem_firstSeenDedup _ _ (he ▸ hx)
    simpa using this
  · intro ⟨r, hr, hxr⟩
    rw [he]
    exact mem_firstSeenDedup_of_mem _ _
      (hxr ▸ List.mem_map_of_mem (fun r => jsIndex r "Date") hr)

theorem datesRest_cachedData (st : ServerState) (data : List Row) :
    (datesRest st data).1.cachedData = st.cachedData := by
  rw [datesRest]
  split <;> rfl

theorem allRest_cachedData (st : ServerState) (data : List Row) :
    (allRest st data).1.cachedData = st.cachedData := by
  rw [allRest]
  split <;> rfl

theorem yieldCurveRest_state (st : ServerState) (data : List Row) (date : String) :
    (yieldCurveRest st data date).1 = st := by
  rw [yieldCurveRest]
  split
  · rfl
  · dsimp only
    split <;> rfl

theorem stepState_preserves_cache (env : Env) (e : Event) (st : ServerState)
    (h : st.cachedData.isSome) : ((stepState env e st).cachedData).isSome := by
  obtain ⟨data, hdata⟩ := Option.isSome_iff_exists.mp h
  cases e with
  | datesReq =>
      simp only [stepState, datesHandler, hdata, datesRest_cachedData, hdata]
      simp [datesRest_cachedData, hdata]
  | curveReq d =>
      cases d with
      | none => simp [stepState, yieldCurveHandler, h]
      | some date =>
          by_cases hd : date = ""
          · simp [stepState, yieldCurveHandler, hd, h]
          · simp [stepState, yieldCurveHandler, hd, hdata, yieldCurveRest_state, h]
  | allReq =>
      simp only [stepState, allHandler, hdata]
      simp [allRest_cachedData, hdata]
  | tick => simpa [stepState, schedulerTick_id] using h

theorem queryFetched_false_of_some (env : Env) (e : Event) (st : ServerState)
    (h : st.cachedData.isSome) : queryFetched env e st = false := by
  obtain ⟨data, hdata⟩ := Option.isSome_iff_exists.mp h
  cases e with
  | datesReq => simp [queryFetched, datesHandler, hdata]
  | curveReq d =>
      cases d with
      | none => simp [queryFetched, yieldCurveHandler]
      | some date =>
          by_cases hd : date = ""
          · simp [queryFetched, yieldCurveHandler, hd]
          · simp [queryFetched, yieldCurveHandler, hd, hdata]
  | allReq => simp [queryFetched, allHandler, hdata]
  | tick => rfl

theorem run_preserves_cache (env : Env) (es : List Event) (st : ServerState)
    (h : st.cachedData.isSome) : ((run env es st).cachedData).isSome := by
  induction es generalizing st with
  | nil => exact h
  | cons e es ih =>
      rw [run, List.foldl_cons]
      exact ih _ (stepState_preserves_cache env e st h)

/-- C5: after a successful startup bootstrap, `cachedData` is non-null in
every reachable state (any sequence of query requests and refresh ticks),
so the lazy branch `if (!cachedData) cachedData = await fetchAndParseCSV()`
of each of the three query handlers never runs: no query triggers a
fetch. -/
theorem no_query_fetch_after_startup (env : Env) (st0 : ServerState)
    (h : startup env = some st0) (es : List Event) :
    ((run env es st0).cachedData).isSome
    ∧ ∀ e, queryFetched env e (run env es st0) = false := by
  have h0 : st0.cachedData.isSome := by
    rw [startup] at h
    generalize hr : fetchAndParseCSV true env.cy env.cm env.fetchParse = r at h
    cases r with
    | error e => simp [startupWith] at h
    | ok data =>
        simp only [startupWith] at h
        cases h
        rfl
  have hrun := run_preserves_cache env es st0 h0
  exact ⟨hrun, fun e => queryFetched_false_of_some env e _ hrun⟩

/-- Witness for C5: a concrete environment whose bootstrap succeeds,
followed by one request of each kind and a tick. -/
theorem no_query_fetch_after_startup_w :
    (startup ⟨2025, 0, fun _ => [[("Date", "01/02/2025")]]⟩
        = some ⟨some [[("Date", "01/02/2025")]], some [some "01/02/2025"]⟩)
    ∧ (((run ⟨2025, 0, fun _ => [[("Date", "01/02/2025")]]⟩
            [Event.datesReq, Event.curveReq (some "01/02/2025"), Event.allReq, Event.tick]
            ⟨some [[("Date", "01/02/2025")]], some [some "01/02/2025"]⟩).cachedData).isSome
        ∧ ∀ e, queryFetched ⟨2025, 0, fun _ => [[("Date", "01/02/2025")]]⟩ e
            (run ⟨2025, 0, fun _ => [[("Date", "01/02/2025")]]⟩
              [Event.datesReq, Event.curveReq (some "01/02/2025"), Event.allReq, Event.tick]
              ⟨some [[("Date", "01/02/2025")]], some [some "01/02/2025"]⟩) = false) := by
  have hs : startup ⟨2025, 0, fun _ => [[("Date", "01/02/2025")]]⟩
      = some ⟨some [[("Date", "01/02/2025")]], some [some "01/02/2025"]⟩ := by
    rw [startup]
    have hf : fetchAndParseCSV true 2025 0 (fun _ => [[("Date", "01/02/2025")]])
        = Except.ok [[("Date", "01/02/2025")]] := by
      simp [fetchAndParseCSV, getAllMonths_jan2025]
    rw [hf]
    simp [startupWith, extractDates, jsSetFromList, jsIndex]
  exact ⟨hs, no_query_fetch_after_startup _ _ hs _⟩

/-- Counterexample to C4 as stated: with a cached dataset whose first row
has maturity column `1 Mo` but whose second row (a different date) has
maturity column `2 Mo`, querying the second date returns a pair for
`2 Mo` — the matched row's schema — not for the first Row's schema
(`extractMaturities` of the dataset, `["1 Mo"]`). -/
theorem curve_first_row_schema_cex :
    (yieldCurveHandler ⟨2025, 0, fun _ => []⟩ (some "01/03/2025")
        ⟨some [[("Date", "01/02/2025"), ("1 Mo", "4.10")],
               [("Date", "01/03/2025"), ("2 Mo", "4.20")]], none⟩)
      = ((⟨some [[("Date", "01/02/2025"), ("1 Mo", "4.10")],
                 [("Date", "01/03/2025"), ("2 Mo", "4.20")]], none⟩,
          Response.okCurve "01/03/2025" [("2 Mo", RateVal.val (parseFloat "4.20"))]),
         false)
    ∧ extractMaturities [[("Date", "01/02/2025"), ("1 Mo", "4.10")],
               [("Date", "01/03/2025"), ("2 Mo", "4.20")]] = ["1 Mo"]
    ∧ (["2 Mo"] : List String) ≠ ["1 Mo"] :=
  ⟨rfl, by decide, by decide⟩

/-- C4 (amended): for a non-empty queried date matching some cached row,
the handler answers 200 with one maturity/rate pair for exactly the
maturity-pattern columns of the **matched** row's own schema
(`extractMaturities [record]`, which the handler requires non-empty); each
pair's rate is null when the row's cell is the empty string and the parsed
decimal value of the cell otherwise. -/
theorem curve_known_date_matched_schema (env : Env) (d : String) (st : ServerState)
    (ds : List Row) (record : Row)
    (hd : d ≠ "") (hcache : st.cachedData = some ds)
    (hfind : ds.find? (fun r => jsIndex r "Date" = some d) = some record)
    (hmat : extractMaturities [record] ≠ []) :
    ∃ curve,
      yieldCurveHandler env (some d) st = ((st, Response.okCurve d curve), false)
      ∧ curve.map Prod.fst = extractMaturities [record]
      ∧ ∀ p ∈ curve, ∃ v, jsIndex record p.1 = some v
          ∧ (v = "" → p.2 = RateVal.null)
          ∧ (v ≠ "" → p.2 = RateVal.val (parseFloat v)) := by
  refine ⟨(extractMaturities [record]).map (fun m => (m, rateOf record m)), ?_, ?_, ?_⟩
  · simp only [yieldCurveHandler, if_neg hd, hcache, yieldCurveRest, hfind]
    rw [if_neg (fun h0 => hmat (List.length_eq_zero.mp h0))]
  · rw [List.map_map]
    exact List.map_id _
  · intro p hp
    obtain ⟨m, hm, rfl⟩ := List.mem_map.mp hp
    have hkey : m ∈ record.map Prod.fst := by
      have h1 : m ∈ (record.map Prod.fst).filter hasMaturityPattern := by
        simpa [extractMaturities] using hm
      exact List.mem_of_mem_filter h1
    have hsome : (record.find? (fun q => q.1 = m)).isSome := by
      refine List.find?_isSome.mpr ?_
      obtain ⟨pr, hpr, hfst⟩ := List.mem_map.mp hkey
      exact ⟨pr, hpr, by simp [hfst]⟩
    obtain ⟨pr, hpr⟩ := Option.isSome_iff_exists.mp hsome
    refine ⟨pr.2, ?_, ?_, ?_⟩
    · rw [jsIndex, hpr]
      rfl
    · intro hv
      simp [rateOf, jsIndex, hpr, hv]
    · intro hv
      simp [rateOf, jsIndex, hpr, hv]

/-- Witness for amended C4: one cached row carrying a filled `1 Mo` cell
and an empty `2 Mo` cell, queried by its own date. -/
theorem curve_known_date_matched_schema_w :
    (("01/02/2025" : String) ≠ ""
      ∧ (⟨some [[("Date", "01/02/2025"), ("1 Mo", "4.10"), ("2 Mo", "")]], none⟩
            : ServerState).cachedData
          = some [[("Date", "01/02/2025"), ("1 Mo", "4.10"), ("2 Mo", "")]]
      ∧ ([[("Date", "01/02/2025"), ("1 Mo", "4.10"), ("2 Mo", "")]] : List Row).find?
            (fun r => jsIndex r "Date" = some "01/02/2025")
          = some [("Date", "01/02/2025"), ("1 Mo", "4.10"), ("2 Mo", "")]
      ∧ extractMaturities [[("Date", "01/02/2025"), ("1 Mo", "4.10"), ("2 Mo", "")]] ≠ [])
    ∧ ∃ curve,
        yieldCurveHandler ⟨2025, 0, fun _ => []⟩ (some "01/02/2025")
            ⟨some [[("Date", "01/02/2025"), ("1 Mo", "4.10"), ("2 Mo", "")]], none⟩
          = ((⟨some [[("Date", "01/02/2025"), ("1 Mo", "4.10"), ("2 Mo", "")]], none⟩,
              Response.okCurve "01/02/2025" curve), false)
        ∧ curve.map Prod.fst
            = extractMaturities [[("Date", "01/02/2025"), ("1 Mo", "4.10"), ("2 Mo", "")]]
        ∧ ∀ p ∈ curve, ∃ v,
            jsIndex [("Date", "01/02/2025"), ("1 Mo", "4.10"), ("2 Mo", "")] p.1 = some v
            ∧ (v = "" → p.2 = RateVal.null)
            ∧ (v ≠ "" → p.2 = RateVal.val (parseFloat v)) :=
  ⟨⟨by decide, rfl, by decide, by decide⟩,
    curve_known_date_matched_schema ⟨2025, 0, fun _ => []⟩ "01/02/2025"
      ⟨some [[("Date", "01/02/2025"), ("1 Mo", "4.10"), ("2 Mo", "")]], none⟩
      [[("Date", "01/02/2025"), ("1 Mo", "4.10"), ("2 Mo", "")]]
      [("Date", "01/02/2025"), ("1 Mo", "4.10"), ("2 Mo", "")]
      (by decide) rfl (by decide) (by decide)⟩
